import Mathlib

/-!
Shallow embedding of `src/analysis/RMA.py` (function `RMARegression`, the
reduced major axis / geometric-mean regression estimator) over exact real
arithmetic, together with theorems checking the specification's claims.

The Python source is a single straight-line function: it computes the
sample covariance matrix `np.cov(X, Y)` (ddof = 1), the correlation
coefficient `np.corrcoef(X, Y)[0, 1]`, the RMA slope/intercept, and two
families of confidence intervals driven by Student-t and Fisher-F
quantiles from `scipy.stats`.  The quantile functions `stats.t.isf` and
`stats.f.isf` are external library calls; they are modelled here as
function parameters `tisf`/`fisf`, so every theorem quantifies over the
quantile oracle (with explicit hypotheses on the values actually used).

Machine floats are modelled by exact reals.  Note that in Lean `x / 0 = 0`
where IEEE arithmetic produces `inf`/`nan`; the theorems about degenerate
inputs only use the fact that the source returns a fully built record
instead of failing, which is faithful in both semantics.
-/

namespace RMA

noncomputable section

open Real

/-- `l.mean()` for a numpy array: sum divided by length. -/
def mean (l : List ℝ) : ℝ := l.sum / l.length

/-- Sum of squared deviations of the first coordinates of the paired sample,
`Σ (xᵢ - mean X)²` (the numerator of `np.cov(X, Y)[0, 0]`). -/
def sxx (X Y : List ℝ) : ℝ := ((X.zip Y).map (fun p => (p.1 - mean X) ^ 2)).sum

/-- Sum of squared deviations of the second coordinates,
`Σ (yᵢ - mean Y)²` (the numerator of `np.cov(X, Y)[1, 1]`). -/
def syy (X Y : List ℝ) : ℝ := ((X.zip Y).map (fun p => (p.2 - mean Y) ^ 2)).sum

/-- Sum of cross deviations `Σ (xᵢ - mean X)(yᵢ - mean Y)`
(the numerator of `np.cov(X, Y)[0, 1]`). -/
def sxy (X Y : List ℝ) : ℝ :=
  ((X.zip Y).map (fun p => (p.1 - mean X) * (p.2 - mean Y))).sum

/-- `np.cov(X, Y)[0, 0]` with the default `ddof = 1`. -/
def cov00 (X Y : List ℝ) : ℝ := sxx X Y / ((Y.length : ℝ) - 1)

/-- `np.cov(X, Y)[1, 1]` with the default `ddof = 1`. -/
def cov11 (X Y : List ℝ) : ℝ := syy X Y / ((Y.length : ℝ) - 1)

/-- `np.cov(X, Y)[0, 1]` with the default `ddof = 1`. -/
def cov01 (X Y : List ℝ) : ℝ := sxy X Y / ((Y.length : ℝ) - 1)

/-- Line 59 of the source: `SCX = S[0, 0] * (n - 1)` where `n = len(Y)`. -/
def SCX (X Y : List ℝ) : ℝ := cov00 X Y * ((Y.length : ℝ) - 1)

/-- Line 60 of the source: `SCY = S[1, 1] * (n - 1)`. -/
def SCY (X Y : List ℝ) : ℝ := cov11 X Y * ((Y.length : ℝ) - 1)

/-- Line 61 of the source: `SCP = S[0, 1] * (n - 1)`. -/
def SCP (X Y : List ℝ) : ℝ := cov01 X Y * ((Y.length : ℝ) - 1)

/-- Lines 63-64: `r = np.corrcoef(X, Y)[0, 1]`, i.e. the off-diagonal
covariance divided by the product of the standard deviations.  (numpy
additionally clips the float result into `[-1, 1]` to absorb rounding; in
exact real arithmetic the clip is the identity, by Cauchy-Schwarz.) -/
def corr (X Y : List ℝ) : ℝ :=
  cov01 X Y / (Real.sqrt (cov00 X Y) * Real.sqrt (cov11 X Y))

/-- Line 66: `v = np.sign(r) * np.sqrt(SCY / SCX)`, the RMA slope. -/
def slopeRMA (X Y : List ℝ) : ℝ :=
  Real.sign (corr X Y) * Real.sqrt (SCY X Y / SCX X Y)

/-- Line 67: `u = Y.mean() - X.mean() * v`, the intercept. -/
def interceptRMA (X Y : List ℝ) : ℝ := mean Y - mean X * slopeRMA X Y

/-- Line 70: `SCv = SCY - SCP ** 2 / SCX`. -/
def SCv (X Y : List ℝ) : ℝ := SCY X Y - SCP X Y ^ 2 / SCX X Y

/-- Line 71: `N = SCv / (n - 2)`. -/
def Nv (X Y : List ℝ) : ℝ := SCv X Y / ((Y.length : ℝ) - 2)

/-- Line 72: `sv = np.sqrt(N / SCX)`, the standard error of the slope. -/
def sv (X Y : List ℝ) : ℝ := Real.sqrt (Nv X Y / SCX X Y)

/-- Line 85: `B = F * (1 - r ** 2) / (n - 2)` for the Jolicoeur-Mosimann
interval, given the F-quantile value `F = fisf alpha 1 (n - 2)`. -/
def Bjm (X Y : List ℝ) (alpha : ℝ) (fisf : ℝ → ℕ → ℕ → ℝ) : ℝ :=
  fisf alpha 1 (Y.length - 2) * (1 - corr X Y ^ 2) / ((Y.length : ℝ) - 2)

/-- The result record (`namedtuple RMAResult` of the source); the interval
fields are ordered pairs `(lower, upper)` as assembled on lines 75-96. -/
structure RMAResult where
  slope : ℝ
  intercept : ℝ
  ci : ℝ
  slope_ci1 : ℝ × ℝ
  intercept_ci1 : ℝ × ℝ
  slope_ci2 : ℝ × ℝ
  intercept_ci2 : ℝ × ℝ
  RSquare : ℝ
  deriving DecidableEq

/-- Lines 55-96 of the source.  `tisf p df` models `stats.t.isf(p, df)` and
`fisf p d1 d2` models `stats.f.isf(p, d1, d2)`.  The source performs no
precondition checks of any kind: it is a single straight-line computation
that always assembles and returns a complete record. -/
def RMARegression (X Y : List ℝ) (alpha : ℝ)
    (tisf : ℝ → ℕ → ℝ) (fisf : ℝ → ℕ → ℕ → ℝ) : RMAResult :=
  let t := tisf (alpha / 2) (Y.length - 2)
  let vi := slopeRMA X Y - t * sv X Y
  let vs := slopeRMA X Y + t * sv X Y
  let a := Real.sqrt (Bjm X Y alpha fisf + 1)
  let c := Real.sqrt (Bjm X Y alpha fisf)
  let qi := slopeRMA X Y * (a - c)
  let qs := slopeRMA X Y * (a + c)
  { slope := slopeRMA X Y
    intercept := interceptRMA X Y
    ci := 1 - alpha
    slope_ci1 := (vi, vs)
    intercept_ci1 := (mean Y - mean X * vs, mean Y - mean X * vi)
    slope_ci2 := (qi, qs)
    intercept_ci2 := (mean Y - mean X * qs, mean Y - mean X * qi)
    RSquare := corr X Y ^ 2 }

/-- Error taxonomy named by the specification (§4.1 / §7). -/
inductive RMAError where
  | InvalidInput
  | InsufficientSample
  | InvalidAlpha
  | DegenerateSample
  deriving DecidableEq

/-- Modelled from the spec: the precondition-checking contract of §4.1
("mismatched-length inputs raise `InvalidInput`; n=2 raises
`InsufficientSample`; alpha=0 or alpha=1 raises `InvalidAlpha`; constant X
(zero variance) raises `DegenerateSample`", checked "before any
distributional computation runs").  The source file contains no such
checks; this definition follows the spec's words so the source's actual
behaviour can be compared against it. -/
def RMARegressionChecked (X Y : List ℝ) (alpha : ℝ)
    (tisf : ℝ → ℕ → ℝ) (fisf : ℝ → ℕ → ℕ → ℝ) : Except RMAError RMAResult :=
  if X.length ≠ Y.length then .error .InvalidInput
  else if Y.length < 3 then .error .InsufficientSample
  else if alpha ≤ 0 ∨ 1 ≤ alpha then .error .InvalidAlpha
  else if SCX X Y = 0 then .error .DegenerateSample
  else .ok (RMARegression X Y alpha tisf fisf)

/-- The worked example's X sample (Sokal & Rohlf Box 14.12, cabezon data). -/
def Xdata : List ℝ := [14, 17, 24, 25, 27, 33, 34, 37, 40, 41, 42]

/-- The worked example's Y sample. -/
def Ydata : List ℝ := [61, 37, 65, 69, 54, 93, 87, 89, 100, 90, 97]

/-- Sample variance as the spec words it: `Var(l) = Σ (x - mean l)² / (n - 1)`
over a single sequence. -/
def specVar (l : List ℝ) : ℝ :=
  ((l.map (fun x => (x - mean l) ^ 2)).sum) / ((l.length : ℝ) - 1)

/-- The spec's `SCX = (n-1)·Var(X)` (and `SCY` with `Y` in place of `X`). -/
def specSC (l : List ℝ) : ℝ := ((l.length : ℝ) - 1) * specVar l

/-- Pearson correlation coefficient as the spec words it:
`Σ (x-x̄)(y-ȳ) / sqrt(Σ (x-x̄)² · Σ (y-ȳ)²)`. -/
def pearson (X Y : List ℝ) : ℝ := sxy X Y / Real.sqrt (sxx X Y * syy X Y)

/-- The `slope` field of the returned record is line 66's `v`. -/
theorem RMARegression_slope (X Y : List ℝ) (alpha : ℝ) (tisf : ℝ → ℕ → ℝ)
    (fisf : ℝ → ℕ → ℕ → ℝ) :
    (RMARegression X Y alpha tisf fisf).slope = slopeRMA X Y := rfl

/-- The `intercept` field is line 67's `u`. -/
theorem RMARegression_intercept (X Y : List ℝ) (alpha : ℝ) (tisf : ℝ → ℕ → ℝ)
    (fisf : ℝ → ℕ → ℕ → ℝ) :
    (RMARegression X Y alpha tisf fisf).intercept = interceptRMA X Y := rfl

/-- The `ci` field is `1 - alpha`. -/
theorem RMARegression_ci (X Y : List ℝ) (alpha : ℝ) (tisf : ℝ → ℕ → ℝ)
    (fisf : ℝ → ℕ → ℕ → ℝ) :
    (RMARegression X Y alpha tisf fisf).ci = 1 - alpha := rfl

/-- The Ricker slope interval, lines 75-76: `(v - t*sv, v + t*sv)`. -/
theorem RMARegression_slope_ci1 (X Y : List ℝ) (alpha : ℝ) (tisf : ℝ → ℕ → ℝ)
    (fisf : ℝ → ℕ → ℕ → ℝ) :
    (RMARegression X Y alpha tisf fisf).slope_ci1 =
      (slopeRMA X Y - tisf (alpha / 2) (Y.length - 2) * sv X Y,
       slopeRMA X Y + tisf (alpha / 2) (Y.length - 2) * sv X Y) := rfl

/-- The Ricker intercept interval, lines 77-78: the lower intercept bound
uses the upper slope bound and vice versa. -/
theorem RMARegression_intercept_ci1 (X Y : List ℝ) (alpha : ℝ) (tisf : ℝ → ℕ → ℝ)
    (fisf : ℝ → ℕ → ℕ → ℝ) :
    (RMARegression X Y alpha tisf fisf).intercept_ci1 =
      (mean Y - mean X * (slopeRMA X Y + tisf (alpha / 2) (Y.length - 2) * sv X Y),
       mean Y - mean X * (slopeRMA X Y - tisf (alpha / 2) (Y.length - 2) * sv X Y)) := rfl

/-- The Jolicoeur-Mosimann slope interval, lines 87-90:
`(v*(a - c), v*(a + c))` with `a = sqrt(B+1)`, `c = sqrt(B)`. -/
theorem RMARegression_slope_ci2 (X Y : List ℝ) (alpha : ℝ) (tisf : ℝ → ℕ → ℝ)
    (fisf : ℝ → ℕ → ℕ → ℝ) :
    (RMARegression X Y alpha tisf fisf).slope_ci2 =
      (slopeRMA X Y * (Real.sqrt (Bjm X Y alpha fisf + 1) - Real.sqrt (Bjm X Y alpha fisf)),
       slopeRMA X Y * (Real.sqrt (Bjm X Y alpha fisf + 1) + Real.sqrt (Bjm X Y alpha fisf))) := rfl

/-- The Jolicoeur-Mosimann intercept interval, lines 91-92. -/
theorem RMARegression_intercept_ci2 (X Y : List ℝ) (alpha : ℝ) (tisf : ℝ → ℕ → ℝ)
    (fisf : ℝ → ℕ → ℕ → ℝ) :
    (RMARegression X Y alpha tisf fisf).intercept_ci2 =
      (mean Y - mean X *
        (slopeRMA X Y * (Real.sqrt (Bjm X Y alpha fisf + 1) + Real.sqrt (Bjm X Y alpha fisf))),
       mean Y - mean X *
        (slopeRMA X Y * (Real.sqrt (Bjm X Y alpha fisf + 1) - Real.sqrt (Bjm X Y alpha fisf)))) := rfl

/-- The `RSquare` field, line 96: `r ** 2`. -/
theorem RMARegression_RSquare (X Y : List ℝ) (alpha : ℝ) (tisf : ℝ → ℕ → ℝ)
    (fisf : ℝ → ℕ → ℕ → ℝ) :
    (RMARegression X Y alpha tisf fisf).RSquare = corr X Y ^ 2 := rfl

/-- When the lists have equal length, a sum over first coordinates of the
zipped sample is a sum over `X`. -/
theorem sum_zip_fst (g : ℝ → ℝ) :
    ∀ (X Y : List ℝ), X.length = Y.length →
      ((X.zip Y).map (fun p => g p.1)).sum = (X.map g).sum
  | [], [], _ => by simp
  | [], _ :: _, h => by simp at h
  | _ :: _, [], h => by simp at h
  | x :: X, y :: Y, h => by
    simp only [List.zip_cons_cons, List.map_cons, List.sum_cons]
    rw [sum_zip_fst g X Y (by simpa using h)]

/-- When the lists have equal length, a sum over second coordinates of the
zipped sample is a sum over `Y`. -/
theorem sum_zip_snd (g : ℝ → ℝ) :
    ∀ (X Y : List ℝ), X.length = Y.length →
      ((X.zip Y).map (fun p => g p.2)).sum = (Y.map g).sum
  | [], [], _ => by simp
  | [], _ :: _, h => by simp at h
  | _ :: _, [], h => by simp at h
  | x :: X, y :: Y, h => by
    simp only [List.zip_cons_cons, List.map_cons, List.sum_cons]
    rw [sum_zip_snd g X Y (by simpa using h)]

theorem sxx_nonneg (X Y : List ℝ) : 0 ≤ sxx X Y := by
  refine List.sum_nonneg fun a ha => ?_
  obtain ⟨p, _, rfl⟩ := List.mem_map.mp ha
  positivity

theorem syy_nonneg (X Y : List ℝ) : 0 ≤ syy X Y := by
  refine List.sum_nonneg fun a ha => ?_
  obtain ⟨p, _, rfl⟩ := List.mem_map.mp ha
  positivity

/-- Cauchy-Schwarz for a list of pairs. -/
theorem list_inner_sq_le (l : List (ℝ × ℝ)) :
    ((l.map (fun p => p.1 * p.2)).sum) ^ 2 ≤
      ((l.map (fun p => p.1 ^ 2)).sum) * ((l.map (fun p => p.2 ^ 2)).sum) := by
  rw [← List.ofFn_getElem_eq_map, ← List.ofFn_getElem_eq_map, ← List.ofFn_getElem_eq_map,
    List.sum_ofFn, List.sum_ofFn, List.sum_ofFn]
  exact Finset.sum_mul_sq_le_sq_mul_sq Finset.univ _ _

/-- Cauchy-Schwarz for the deviation sums: `SCP² ≤ SCX·SCY` in raw form. -/
theorem sxy_sq_le (X Y : List ℝ) : sxy X Y ^ 2 ≤ sxx X Y * syy X Y := by
  have h := list_inner_sq_le ((X.zip Y).map (fun p => (p.1 - mean X, p.2 - mean Y)))
  simpa [sxy, sxx, syy, List.map_map, Function.comp] using h

/-- With at least two observations, the code's `np.corrcoef` value (built
from `ddof = 1` covariances) equals the textbook Pearson coefficient. -/
theorem corr_eq_pearson (X Y : List ℝ) (hn : 2 ≤ Y.length) :
    corr X Y = pearson X Y := by
  have hc : (0 : ℝ) < (Y.length : ℝ) - 1 := by
    have : (2 : ℝ) ≤ (Y.length : ℝ) := by exact_mod_cast hn
    linarith
  rw [corr, pearson, cov01, cov00, cov11, Real.sqrt_div (sxx_nonneg X Y),
    Real.sqrt_div (syy_nonneg X Y), Real.sqrt_mul (sxx_nonneg X Y), div_mul_div_comm,
    Real.mul_self_sqrt hc.le, div_div_eq_mul_div, div_mul_cancel₀ _ hc.ne']

/-- The code's `SCX` (covariance un-normalised by `n-1`) is the raw
deviation sum when `n ≥ 2`. -/
theorem SCX_eq_sxx (X Y : List ℝ) (hn : 2 ≤ Y.length) : SCX X Y = sxx X Y := by
  have hc : ((Y.length : ℝ) - 1) ≠ 0 := by
    have : (2 : ℝ) ≤ (Y.length : ℝ) := by exact_mod_cast hn
    intro h; linarith
  rw [SCX, cov00, div_mul_cancel₀ _ hc]

theorem SCY_eq_syy (X Y : List ℝ) (hn : 2 ≤ Y.length) : SCY X Y = syy X Y := by
  have hc : ((Y.length : ℝ) - 1) ≠ 0 := by
    have : (2 : ℝ) ≤ (Y.length : ℝ) := by exact_mod_cast hn
    intro h; linarith
  rw [SCY, cov11, div_mul_cancel₀ _ hc]

theorem SCP_eq_sxy (X Y : List ℝ) (hn : 2 ≤ Y.length) : SCP X Y = sxy X Y := by
  have hc : ((Y.length : ℝ) - 1) ≠ 0 := by
    have : (2 : ℝ) ≤ (Y.length : ℝ) := by exact_mod_cast hn
    intro h; linarith
  rw [SCP, cov01, div_mul_cancel₀ _ hc]

/-- The spec's `(n-1)·Var(X)` over the single list `X` equals the code's
raw deviation sum over the zipped sample, given equal lengths `≥ 2`. -/
theorem specSC_fst (X Y : List ℝ) (hl : X.length = Y.length) (hn : 2 ≤ Y.length) :
    specSC X = sxx X Y := by
  have hc : ((X.length : ℝ) - 1) ≠ 0 := by
    have : (2 : ℝ) ≤ (X.length : ℝ) := by rw [hl]; exact_mod_cast hn
    intro h; linarith
  rw [specSC, specVar, mul_div_cancel₀ _ hc, sxx, sum_zip_fst (fun x => (x - mean X) ^ 2) X Y hl]

theorem specSC_snd (X Y : List ℝ) (hl : X.length = Y.length) (hn : 2 ≤ Y.length) :
    specSC Y = syy X Y := by
  have hc : ((Y.length : ℝ) - 1) ≠ 0 := by
    have : (2 : ℝ) ≤ (Y.length : ℝ) := by exact_mod_cast hn
    intro h; linarith
  rw [specSC, specVar, mul_div_cancel₀ _ hc, syy, sum_zip_snd (fun y => (y - mean Y) ^ 2) X Y hl]

/-- C1.  The specification claims `RMARegression` fails with
`DegenerateSample` on zero X-variance, "detected explicitly" "rather than
returning a result".  The source contains no such check: on the constant
sample `X = [1,1,1]` (with otherwise valid arguments) the spec-modelled
checker fails with `DegenerateSample`, but the source function still
returns a fully built result record, so it does not agree with the
checker there. -/
theorem C1_counterexample :
    RMARegressionChecked [1, 1, 1] [1, 2, 3] (1 / 2) (fun _ _ => 1) (fun _ _ _ => 1)
        = .error .DegenerateSample ∧
      Except.ok (RMARegression [1, 1, 1] [1, 2, 3] (1 / 2) (fun _ _ => 1) (fun _ _ _ => 1))
        ≠ RMARegressionChecked [1, 1, 1] [1, 2, 3] (1 / 2) (fun _ _ => 1) (fun _ _ _ => 1) := by
  have h : RMARegressionChecked [1, 1, 1] [1, 2, 3] (1 / 2) (fun _ _ => 1) (fun _ _ _ => 1)
      = .error .DegenerateSample := by
    rw [RMARegressionChecked]
    norm_num [SCX, cov00, sxx, mean, List.zip]
  exact ⟨h, by rw [h]; simp⟩

/-- C1 (amended).  The source performs no zero-variance check: on any
otherwise-valid input with `SCX = 0` the spec-modelled checker fails with
`DegenerateSample`, while the source function evaluates the slope formula
anyway and returns a result record (its slope degenerates to `0` under
Lean's `x / 0 = 0` convention, standing in for the IEEE NaN/Inf that the
float computation produces). -/
theorem C1_no_degenerate_check (X Y : List ℝ) (alpha : ℝ) (tisf : ℝ → ℕ → ℝ)
    (fisf : ℝ → ℕ → ℕ → ℝ) (hl : X.length = Y.length) (hn : 3 ≤ Y.length)
    (ha0 : 0 < alpha) (ha1 : alpha < 1) (h0 : SCX X Y = 0) :
    RMARegressionChecked X Y alpha tisf fisf = .error .DegenerateSample ∧
      (RMARegression X Y alpha tisf fisf).slope = 0 := by
  constructor
  · rw [RMARegressionChecked, if_neg (by simp [hl]), if_neg (by omega),
      if_neg (by push_neg; exact ⟨ha0, ha1⟩), if_pos h0]
  · rw [RMARegression_slope, slopeRMA, h0, div_zero, Real.sqrt_zero, mul_zero]

/-- Witness for C1's amended theorem at the concrete constant sample
`X = [2,2,2]`, `Y = [1,2,4]`, `alpha = 1/2`. -/
theorem C1_witness :
    (([2, 2, 2] : List ℝ).length = ([1, 2, 4] : List ℝ).length ∧
        3 ≤ ([1, 2, 4] : List ℝ).length ∧ (0 : ℝ) < 1 / 2 ∧ (1 : ℝ) / 2 < 1 ∧
        SCX [2, 2, 2] [1, 2, 4] = 0) ∧
      RMARegressionChecked [2, 2, 2] [1, 2, 4] (1 / 2) (fun _ _ => 2) (fun _ _ _ => 2)
          = .error .DegenerateSample ∧
        (RMARegression [2, 2, 2] [1, 2, 4] (1 / 2) (fun _ _ => 2) (fun _ _ _ => 2)).slope = 0 :=
  ⟨⟨rfl, by norm_num, by norm_num, by norm_num,
      by norm_num [SCX, cov00, sxx, mean, List.zip]⟩,
    C1_no_degenerate_check _ _ _ _ _ rfl (by norm_num) (by norm_num) (by norm_num)
      (by norm_num [SCX, cov00, sxx, mean, List.zip])⟩

/-- C2.  The specification claims precondition checks run before any
distributional computation, failing with `InsufficientSample` for `n = 2`.
The source has no checks: on the length-2 input `X = [1,2]`, `Y = [3,5]`
the spec-modelled checker fails with `InsufficientSample`, while the
source still returns a fully built record, so it does not agree with the
checker there. -/
theorem C2_counterexample :
    RMARegressionChecked [1, 2] [3, 5] (1 / 20) (fun _ _ => 1) (fun _ _ _ => 1)
        = .error .InsufficientSample ∧
      Except.ok (RMARegression [1, 2] [3, 5] (1 / 20) (fun _ _ => 1) (fun _ _ _ => 1))
        ≠ RMARegressionChecked [1, 2] [3, 5] (1 / 20) (fun _ _ => 1) (fun _ _ _ => 1) := by
  have h : RMARegressionChecked [1, 2] [3, 5] (1 / 20) (fun _ _ => 1) (fun _ _ _ => 1)
      = .error .InsufficientSample := by
    rw [RMARegressionChecked, if_neg (by simp), if_pos (by norm_num)]
  exact ⟨h, by rw [h]; simp⟩

/-- C2 (amended).  The source performs no precondition checks at all: on
any equal-length input with `n = 2` the spec-modelled checker fails with
`InsufficientSample`, while the source function runs the whole
computation and returns a complete record (here witnessed by its `ci`
field being the assembled `1 - alpha`); likewise nothing guards `alpha`,
and a length mismatch only surfaces as an unnamed shape error inside
`np.cov`, not as an `InvalidInput` precondition failure. -/
theorem C2_no_precondition_checks (X Y : List ℝ) (alpha : ℝ) (tisf : ℝ → ℕ → ℝ)
    (fisf : ℝ → ℕ → ℕ → ℝ) (hl : X.length = Y.length) (h2 : Y.length = 2) :
    RMARegressionChecked X Y alpha tisf fisf = .error .InsufficientSample ∧
      (RMARegression X Y alpha tisf fisf).ci = 1 - alpha := by
  refine ⟨?_, RMARegression_ci X Y alpha tisf fisf⟩
  rw [RMARegressionChecked, if_neg (by simp [hl]), if_pos (by omega)]

/-- Witness for C2's amended theorem at `X = [2,4]`, `Y = [1,5]`,
`alpha = 1/10`. -/
theorem C2_witness :
    (([2, 4] : List ℝ).length = ([1, 5] : List ℝ).length ∧
        ([1, 5] : List ℝ).length = 2) ∧
      RMARegressionChecked [2, 4] [1, 5] (1 / 10) (fun _ _ => 2) (fun _ _ _ => 2)
          = .error .InsufficientSample ∧
        (RMARegression [2, 4] [1, 5] (1 / 10) (fun _ _ => 2) (fun _ _ _ => 2)).ci
          = 1 - 1 / 10 :=
  ⟨⟨rfl, rfl⟩, C2_no_precondition_checks _ _ _ _ _ rfl rfl⟩

/-- C3.  For valid inputs the returned point estimates satisfy the spec's
formulas: `slope = sign(r)·sqrt(SCY/SCX)` with `r` the textbook Pearson
correlation and `SCX`/`SCY` the spec's `(n-1)·Var` sums over the single
lists, and `intercept = mean(Y) - mean(X)·slope`. -/
theorem C3_point_estimates (X Y : List ℝ) (alpha : ℝ) (tisf : ℝ → ℕ → ℝ)
    (fisf : ℝ → ℕ → ℕ → ℝ) (hl : X.length = Y.length) (hn : 3 ≤ Y.length)
    (hx : 0 < specVar X) (hy : 0 < specVar Y) (ha0 : 0 < alpha) (ha1 : alpha < 1) :
    (RMARegression X Y alpha tisf fisf).slope
        = Real.sign (pearson X Y) * Real.sqrt (specSC Y / specSC X) ∧
      (RMARegression X Y alpha tisf fisf).intercept
        = mean Y - mean X * (RMARegression X Y alpha tisf fisf).slope := by
  have hn2 : 2 ≤ Y.length := by omega
  refine ⟨?_, rfl⟩
  rw [RMARegression_slope, slopeRMA, corr_eq_pearson X Y hn2, SCY_eq_syy X Y hn2,
    SCX_eq_sxx X Y hn2, specSC_fst X Y hl hn2, specSC_snd X Y hl hn2]

/-- Witness for C3 on `X = [1,2,3]`, `Y = [2,3,5]`, `alpha = 1/2`. -/
theorem C3_witness :
    (([1, 2, 3] : List ℝ).length = ([2, 3, 5] : List ℝ).length ∧
        3 ≤ ([2, 3, 5] : List ℝ).length ∧ 0 < specVar [1, 2, 3] ∧ 0 < specVar [2, 3, 5] ∧
        (0 : ℝ) < 1 / 2 ∧ (1 : ℝ) / 2 < 1) ∧
      (RMARegression [1, 2, 3] [2, 3, 5] (1 / 2) (fun _ _ => 2) (fun _ _ _ => 2)).slope
          = Real.sign (pearson [1, 2, 3] [2, 3, 5])
              * Real.sqrt (specSC [2, 3, 5] / specSC [1, 2, 3]) ∧
        (RMARegression [1, 2, 3] [2, 3, 5] (1 / 2) (fun _ _ => 2) (fun _ _ _ => 2)).intercept
          = mean [2, 3, 5] - mean [1, 2, 3]
              * (RMARegression [1, 2, 3] [2, 3, 5] (1 / 2) (fun _ _ => 2) (fun _ _ _ => 2)).slope :=
  ⟨⟨rfl, by norm_num, by norm_num [specVar, mean], by norm_num [specVar, mean],
      by norm_num, by norm_num⟩,
    C3_point_estimates _ _ _ _ _ rfl (by norm_num) (by norm_num [specVar, mean])
      (by norm_num [specVar, mean]) (by norm_num) (by norm_num)⟩

/-- With positive variances the raw deviation sums are positive. -/
theorem sxx_pos (X Y : List ℝ) (hl : X.length = Y.length) (hn : 2 ≤ Y.length)
    (hx : 0 < specVar X) : 0 < sxx X Y := by
  rw [← specSC_fst X Y hl hn, specSC]
  have hc : (0 : ℝ) < (X.length : ℝ) - 1 := by
    have : (2 : ℝ) ≤ (X.length : ℝ) := by rw [hl]; exact_mod_cast hn
    linarith
  exact mul_pos hc hx

theorem syy_pos (X Y : List ℝ) (hl : X.length = Y.length) (hn : 2 ≤ Y.length)
    (hy : 0 < specVar Y) : 0 < syy X Y := by
  rw [← specSC_snd X Y hl hn, specSC]
  have hc : (0 : ℝ) < (Y.length : ℝ) - 1 := by
    have : (2 : ℝ) ≤ (Y.length : ℝ) := by exact_mod_cast hn
    linarith
  exact mul_pos hc hy

/-- For valid inputs the squared correlation is at most one
(Cauchy-Schwarz). -/
theorem corr_sq_le_one (X Y : List ℝ) (hl : X.length = Y.length) (hn : 2 ≤ Y.length)
    (hx : 0 < specVar X) (hy : 0 < specVar Y) : corr X Y ^ 2 ≤ 1 := by
  have hsxx := sxx_pos X Y hl hn hx
  have hsyy := syy_pos X Y hl hn hy
  rw [corr_eq_pearson X Y hn, pearson, div_pow,
    Real.sq_sqrt (mul_nonneg hsxx.le hsyy.le)]
  exact div_le_one_of_le₀ (sxy_sq_le X Y) (mul_nonneg hsxx.le hsyy.le)

/-- C8.  For valid inputs the returned `RSquare` is the squared Pearson
correlation of X and Y and lies in `[0, 1]`. -/
theorem C8_rsquare_bounds (X Y : List ℝ) (alpha : ℝ) (tisf : ℝ → ℕ → ℝ)
    (fisf : ℝ → ℕ → ℕ → ℝ) (hl : X.length = Y.length) (hn : 3 ≤ Y.length)
    (hx : 0 < specVar X) (hy : 0 < specVar Y) (ha0 : 0 < alpha) (ha1 : alpha < 1) :
    (RMARegression X Y alpha tisf fisf).RSquare = pearson X Y ^ 2 ∧
      0 ≤ (RMARegression X Y alpha tisf fisf).RSquare ∧
      (RMARegression X Y alpha tisf fisf).RSquare ≤ 1 := by
  have hn2 : 2 ≤ Y.length := by omega
  refine ⟨?_, ?_, ?_⟩
  · rw [RMARegression_RSquare, corr_eq_pearson X Y hn2]
  · rw [RMARegression_RSquare]; positivity
  · rw [RMARegression_RSquare]; exact corr_sq_le_one X Y hl hn2 hx hy

/-- Witness for C8 on `X = [1,2,3]`, `Y = [2,3,4]`, `alpha = 1/4`. -/
theorem C8_witness :
    (([1, 2, 3] : List ℝ).length = ([2, 3, 4] : List ℝ).length ∧
        3 ≤ ([2, 3, 4] : List ℝ).length ∧ 0 < specVar [1, 2, 3] ∧ 0 < specVar [2, 3, 4] ∧
        (0 : ℝ) < 1 / 4 ∧ (1 : ℝ) / 4 < 1) ∧
      (RMARegression [1, 2, 3] [2, 3, 4] (1 / 4) (fun _ _ => 2) (fun _ _ _ => 2)).RSquare
          = pearson [1, 2, 3] [2, 3, 4] ^ 2 ∧
        0 ≤ (RMARegression [1, 2, 3] [2, 3, 4] (1 / 4) (fun _ _ => 2) (fun _ _ _ => 2)).RSquare ∧
        (RMARegression [1, 2, 3] [2, 3, 4] (1 / 4) (fun _ _ => 2) (fun _ _ _ => 2)).RSquare ≤ 1 :=
  ⟨⟨rfl, by norm_num, by norm_num [specVar, mean], by norm_num [specVar, mean],
      by norm_num, by norm_num⟩,
    C8_rsquare_bounds _ _ _ _ _ rfl (by norm_num) (by norm_num [specVar, mean])
      (by norm_num [specVar, mean]) (by norm_num) (by norm_num)⟩

/-- The Jolicoeur-Mosimann `B` is nonnegative for valid inputs when the
F-quantile value used is nonnegative. -/
theorem Bjm_nonneg (X Y : List ℝ) (alpha : ℝ) (fisf : ℝ → ℕ → ℕ → ℝ)
    (hl : X.length = Y.length) (hn : 3 ≤ Y.length) (hx : 0 < specVar X)
    (hy : 0 < specVar Y) (hf : 0 ≤ fisf alpha 1 (Y.length - 2)) :
    0 ≤ Bjm X Y alpha fisf := by
  have hn2 : 2 ≤ Y.length := by omega
  have hr2 := corr_sq_le_one X Y hl hn2 hx hy
  have hc : (0 : ℝ) ≤ (Y.length : ℝ) - 2 := by
    have : (3 : ℝ) ≤ (Y.length : ℝ) := by exact_mod_cast hn
    linarith
  exact div_nonneg (mul_nonneg hf (by linarith)) hc

/-- C9.  For valid inputs (with a nonnegative F-quantile value) the two
Jolicoeur-Mosimann slope bounds multiply to the squared point estimate:
`slope_ci2[0] · slope_ci2[1] = slope²`, since `(a-c)(a+c) = (B+1) - B = 1`. -/
theorem C9_product_identity (X Y : List ℝ) (alpha : ℝ) (tisf : ℝ → ℕ → ℝ)
    (fisf : ℝ → ℕ → ℕ → ℝ) (hl : X.length = Y.length) (hn : 3 ≤ Y.length)
    (hx : 0 < specVar X) (hy : 0 < specVar Y) (ha0 : 0 < alpha) (ha1 : alpha < 1)
    (hf : 0 ≤ fisf alpha 1 (Y.length - 2)) :
    (RMARegression X Y alpha tisf fisf).slope_ci2.1
        * (RMARegression X Y alpha tisf fisf).slope_ci2.2
      = (RMARegression X Y alpha tisf fisf).slope ^ 2 := by
  have hB := Bjm_nonneg X Y alpha fisf hl hn hx hy hf
  rw [RMARegression_slope_ci2, RMARegression_slope]
  have ha2 : Real.sqrt (Bjm X Y alpha fisf + 1) ^ 2 = Bjm X Y alpha fisf + 1 :=
    Real.sq_sqrt (by linarith)
  have hc2 : Real.sqrt (Bjm X Y alpha fisf) ^ 2 = Bjm X Y alpha fisf :=
    Real.sq_sqrt hB
  calc slopeRMA X Y * (Real.sqrt (Bjm X Y alpha fisf + 1) - Real.sqrt (Bjm X Y alpha fisf))
        * (slopeRMA X Y * (Real.sqrt (Bjm X Y alpha fisf + 1) + Real.sqrt (Bjm X Y alpha fisf)))
      = slopeRMA X Y ^ 2 * (Real.sqrt (Bjm X Y alpha fisf + 1) ^ 2
          - Real.sqrt (Bjm X Y alpha fisf) ^ 2) := by ring
    _ = slopeRMA X Y ^ 2 := by rw [ha2, hc2]; ring

/-- Witness for C9 on `X = [1,2,3]`, `Y = [2,3,5]`, `alpha = 1/2`. -/
theorem C9_witness :
    (([1, 2, 3] : List ℝ).length = ([2, 3, 5] : List ℝ).length ∧
        3 ≤ ([2, 3, 5] : List ℝ).length ∧ 0 < specVar [1, 2, 3] ∧ 0 < specVar [2, 3, 5] ∧
        (0 : ℝ) < 1 / 2 ∧ (1 : ℝ) / 2 < 1 ∧ (0 : ℝ) ≤ 3) ∧
      (RMARegression [1, 2, 3] [2, 3, 5] (1 / 2) (fun _ _ => 3) (fun _ _ _ => 3)).slope_ci2.1
          * (RMARegression [1, 2, 3] [2, 3, 5] (1 / 2) (fun _ _ => 3) (fun _ _ _ => 3)).slope_ci2.2
        = (RMARegression [1, 2, 3] [2, 3, 5] (1 / 2) (fun _ _ => 3) (fun _ _ _ => 3)).slope ^ 2 :=
  ⟨⟨rfl, by norm_num, by norm_num [specVar, mean], by norm_num [specVar, mean],
      by norm_num, by norm_num, by norm_num⟩,
    C9_product_identity _ _ _ _ _ rfl (by norm_num) (by norm_num [specVar, mean])
      (by norm_num [specVar, mean]) (by norm_num) (by norm_num) (by norm_num)⟩

/-- The RMA slope carries the sign of the correlation: nonnegative `r`
gives a nonnegative slope. -/
theorem slopeRMA_nonneg (X Y : List ℝ) (h : 0 ≤ corr X Y) : 0 ≤ slopeRMA X Y := by
  rw [slopeRMA]
  rcases eq_or_lt_of_le h with h0 | hpos
  · rw [← h0, Real.sign_zero, zero_mul]
  · rw [Real.sign_of_pos hpos, one_mul]; exact Real.sqrt_nonneg _

/-- Nonpositive `r` gives a nonpositive slope. -/
theorem slopeRMA_nonpos (X Y : List ℝ) (h : corr X Y ≤ 0) : slopeRMA X Y ≤ 0 := by
  rw [slopeRMA]
  rcases eq_or_lt_of_le h with h0 | hneg
  · rw [h0, Real.sign_zero, zero_mul]
  · rw [Real.sign_of_neg hneg, neg_one_mul]
    exact neg_nonpos_of_nonneg (Real.sqrt_nonneg _)

/-- `a - c ≤ 1 ≤ a + c` for `a = sqrt(B+1)`, `c = sqrt(B)`, `B ≥ 0`. -/
theorem sqrt_succ_sub_sqrt_le_one {B : ℝ} (hB : 0 ≤ B) :
    Real.sqrt (B + 1) - Real.sqrt B ≤ 1 ∧ 1 ≤ Real.sqrt (B + 1) + Real.sqrt B := by
  have hc2 : Real.sqrt B ^ 2 = B := Real.sq_sqrt hB
  have hcn : 0 ≤ Real.sqrt B := Real.sqrt_nonneg B
  constructor
  · have h1 : Real.sqrt (B + 1) ≤ 1 + Real.sqrt B := by
      have h2 : B + 1 ≤ (1 + Real.sqrt B) ^ 2 := by nlinarith
      calc Real.sqrt (B + 1) ≤ Real.sqrt ((1 + Real.sqrt B) ^ 2) := Real.sqrt_le_sqrt h2
        _ = 1 + Real.sqrt B := Real.sqrt_sq (by linarith)
    linarith
  · have h1 : (1 : ℝ) ≤ Real.sqrt (B + 1) :=
      (Real.le_sqrt' one_pos).mpr (by nlinarith)
    linarith

/-- C4 (original claim).  On a valid input with negative `mean(X)` the
Ricker intercept pair comes out reversed: `intercept_ci1[0] > intercept_ci1[1]`.
Input `X = [-1,-2,-4]`, `Y = [1,2,3]`, `alpha = 1/2`, positive quantile
values `t* = F* = 2`; all the claim's validity conditions hold, yet the
claimed ordering fails. -/
theorem C4_counterexample :
    (([-1, -2, -4] : List ℝ).length = ([1, 2, 3] : List ℝ).length ∧
        3 ≤ ([1, 2, 3] : List ℝ).length ∧ 0 < specVar [-1, -2, -4] ∧ 0 < specVar [1, 2, 3] ∧
        (0 : ℝ) < 1 / 2 ∧ (1 : ℝ) / 2 < 1 ∧ (0 : ℝ) ≤ 2 ∧ (0 : ℝ) ≤ 2) ∧
      ¬ ((RMARegression [-1, -2, -4] [1, 2, 3] (1 / 2) (fun _ _ => 2)
            (fun _ _ _ => 2)).intercept_ci1.1
          ≤ (RMARegression [-1, -2, -4] [1, 2, 3] (1 / 2) (fun _ _ => 2)
            (fun _ _ _ => 2)).intercept_ci1.2) := by
  refine ⟨⟨rfl, by norm_num, by norm_num [specVar, mean], by norm_num [specVar, mean],
      by norm_num, by norm_num, by norm_num, by norm_num⟩, ?_⟩
  have hratio : Nv [-1, -2, -4] [1, 2, 3] / SCX [-1, -2, -4] [1, 2, 3] = 3 / 196 := by
    norm_num [Nv, SCv, SCY, SCX, SCP, cov00, cov11, cov01, sxx, syy, sxy, mean, List.zip]
  have hsv : sv [-1, -2, -4] [1, 2, 3] = Real.sqrt (3 / 196) := by rw [sv, hratio]
  have hsvpos : 0 < sv [-1, -2, -4] [1, 2, 3] := by
    rw [hsv]; exact Real.sqrt_pos.mpr (by norm_num)
  have hmX : mean [-1, -2, -4] = -7 / 3 := by norm_num [mean]
  rw [RMARegression_intercept_ci1]
  push_neg
  simp only [hmX]
  nlinarith [hsvpos]

/-- C4 (amended).  For every valid input and nonnegative quantile values:
the Ricker slope pair is always ordered; the Jolicoeur-Mosimann slope
pair is ordered whenever `r ≥ 0`; the Ricker intercept pair is ordered
whenever `mean(X) ≥ 0`; and the Jolicoeur-Mosimann intercept pair is
ordered whenever `mean(X)·slope ≥ 0`.  (The counterexample shows the
unconditional claim fails for negative `mean(X)`, and symmetrically the
slope_ci2 pair reverses for negative `r`.) -/
theorem C4_interval_ordering (X Y : List ℝ) (alpha : ℝ) (tisf : ℝ → ℕ → ℝ)
    (fisf : ℝ → ℕ → ℕ → ℝ) (hl : X.length = Y.length) (hn : 3 ≤ Y.length)
    (hx : 0 < specVar X) (hy : 0 < specVar Y) (ha0 : 0 < alpha) (ha1 : alpha < 1)
    (ht : 0 ≤ tisf (alpha / 2) (Y.length - 2)) (hf : 0 ≤ fisf alpha 1 (Y.length - 2)) :
    ((RMARegression X Y alpha tisf fisf).slope_ci1.1
        ≤ (RMARegression X Y alpha tisf fisf).slope_ci1.2) ∧
      (0 ≤ corr X Y →
        (RMARegression X Y alpha tisf fisf).slope_ci2.1
          ≤ (RMARegression X Y alpha tisf fisf).slope_ci2.2) ∧
      (0 ≤ mean X →
        (RMARegression X Y alpha tisf fisf).intercept_ci1.1
          ≤ (RMARegression X Y alpha tisf fisf).intercept_ci1.2) ∧
      (0 ≤ mean X * (RMARegression X Y alpha tisf fisf).slope →
        (RMARegression X Y alpha tisf fisf).intercept_ci2.1
          ≤ (RMARegression X Y alpha tisf fisf).intercept_ci2.2) := by
  have htsv : 0 ≤ tisf (alpha / 2) (Y.length - 2) * sv X Y :=
    mul_nonneg ht (Real.sqrt_nonneg _)
  have hcn : 0 ≤ Real.sqrt (Bjm X Y alpha fisf) := Real.sqrt_nonneg _
  refine ⟨?_, ?_, ?_, ?_⟩
  · rw [RMARegression_slope_ci1]; dsimp only; linarith
  · intro hr
    have hv := slopeRMA_nonneg X Y hr
    rw [RMARegression_slope_ci2]; dsimp only
    nlinarith [mul_nonneg hv hcn]
  · intro hmx
    rw [RMARegression_intercept_ci1]; dsimp only
    nlinarith [mul_nonneg hmx htsv]
  · intro hmv
    rw [RMARegression_slope] at hmv
    rw [RMARegression_intercept_ci2]; dsimp only
    nlinarith [mul_nonneg hmv hcn]

/-- Witness for C4's amended theorem on `X = [1,2,3]`, `Y = [2,3,5]`,
`alpha = 1/2`, quantile values `2`. -/
theorem C4_witness :
    (([1, 2, 3] : List ℝ).length = ([2, 3, 5] : List ℝ).length ∧
        3 ≤ ([2, 3, 5] : List ℝ).length ∧ 0 < specVar [1, 2, 3] ∧ 0 < specVar [2, 3, 5] ∧
        (0 : ℝ) < 1 / 2 ∧ (1 : ℝ) / 2 < 1 ∧ (0 : ℝ) ≤ 2 ∧ (0 : ℝ) ≤ 2) ∧
      (((RMARegression [1, 2, 3] [2, 3, 5] (1 / 2) (fun _ _ => 2) (fun _ _ _ => 2)).slope_ci1.1
          ≤ (RMARegression [1, 2, 3] [2, 3, 5] (1 / 2) (fun _ _ => 2)
              (fun _ _ _ => 2)).slope_ci1.2) ∧
        (0 ≤ corr [1, 2, 3] [2, 3, 5] →
          (RMARegression [1, 2, 3] [2, 3, 5] (1 / 2) (fun _ _ => 2) (fun _ _ _ => 2)).slope_ci2.1
            ≤ (RMARegression [1, 2, 3] [2, 3, 5] (1 / 2) (fun _ _ => 2)
                (fun _ _ _ => 2)).slope_ci2.2) ∧
        (0 ≤ mean [1, 2, 3] →
          (RMARegression [1, 2, 3] [2, 3, 5] (1 / 2) (fun _ _ => 2)
              (fun _ _ _ => 2)).intercept_ci1.1
            ≤ (RMARegression [1, 2, 3] [2, 3, 5] (1 / 2) (fun _ _ => 2)
                (fun _ _ _ => 2)).intercept_ci1.2) ∧
        (0 ≤ mean [1, 2, 3]
            * (RMARegression [1, 2, 3] [2, 3, 5] (1 / 2) (fun _ _ => 2) (fun _ _ _ => 2)).slope →
          (RMARegression [1, 2, 3] [2, 3, 5] (1 / 2) (fun _ _ => 2)
              (fun _ _ _ => 2)).intercept_ci2.1
            ≤ (RMARegression [1, 2, 3] [2, 3, 5] (1 / 2) (fun _ _ => 2)
                (fun _ _ _ => 2)).intercept_ci2.2)) :=
  ⟨⟨rfl, by norm_num, by norm_num [specVar, mean], by norm_num [specVar, mean],
      by norm_num, by norm_num, by norm_num, by norm_num⟩,
    C4_interval_ordering _ _ _ _ _ rfl (by norm_num) (by norm_num [specVar, mean])
      (by norm_num [specVar, mean]) (by norm_num) (by norm_num) (by norm_num) (by norm_num)⟩

/-- C5 (original claim).  On a valid input with negative correlation the
point estimate does not lie above the first Jolicoeur-Mosimann bound:
for `X = [1,2,4]`, `Y = [3,2,1]`, `alpha = 1/2`, quantile values `2`, all
validity conditions hold but `slope_ci2[0] ≤ slope` fails (the
multiplicative bounds come out reversed around a negative slope). -/
theorem C5_counterexample :
    (([1, 2, 4] : List ℝ).length = ([3, 2, 1] : List ℝ).length ∧
        3 ≤ ([3, 2, 1] : List ℝ).length ∧ 0 < specVar [1, 2, 4] ∧ 0 < specVar [3, 2, 1] ∧
        (0 : ℝ) < 1 / 2 ∧ (1 : ℝ) / 2 < 1 ∧ (0 : ℝ) ≤ 2 ∧ (0 : ℝ) ≤ 2) ∧
      ¬ ((RMARegression [1, 2, 4] [3, 2, 1] (1 / 2) (fun _ _ => 2) (fun _ _ _ => 2)).slope_ci2.1
          ≤ (RMARegression [1, 2, 4] [3, 2, 1] (1 / 2) (fun _ _ => 2) (fun _ _ _ => 2)).slope) := by
  refine ⟨⟨rfl, by norm_num, by norm_num [specVar, mean], by norm_num [specVar, mean],
      by norm_num, by norm_num, by norm_num, by norm_num⟩, ?_⟩
  have h00 : cov00 [1, 2, 4] [3, 2, 1] = 7 / 3 := by
    norm_num [cov00, sxx, mean, List.zip]
  have h11 : cov11 [1, 2, 4] [3, 2, 1] = 1 := by
    norm_num [cov11, syy, mean, List.zip]
  have h01 : cov01 [1, 2, 4] [3, 2, 1] = -(3 / 2) := by
    norm_num [cov01, sxy, mean, List.zip]
  have hcorr : corr [1, 2, 4] [3, 2, 1] < 0 := by
    rw [corr, h01, h00, h11]
    apply div_neg_of_neg_of_pos (by norm_num)
    positivity
  have hr2 : corr [1, 2, 4] [3, 2, 1] ^ 2 = 27 / 28 := by
    rw [corr, h01, h00, h11, div_pow, mul_pow, Real.sq_sqrt (by norm_num : (0:ℝ) ≤ 7 / 3),
      Real.sq_sqrt (by norm_num : (0:ℝ) ≤ 1)]
    norm_num
  have hB : Bjm [1, 2, 4] [3, 2, 1] (1 / 2) (fun _ _ _ => 2) = 1 / 14 := by
    rw [Bjm, hr2]; norm_num
  have hratio : SCY [1, 2, 4] [3, 2, 1] / SCX [1, 2, 4] [3, 2, 1] = 3 / 7 := by
    norm_num [SCY, SCX, cov00, cov11, sxx, syy, mean, List.zip]
  have hslope : slopeRMA [1, 2, 4] [3, 2, 1] = -Real.sqrt (3 / 7) := by
    rw [slopeRMA, Real.sign_of_neg hcorr, hratio]; ring
  rw [RMARegression_slope_ci2, RMARegression_slope]
  dsimp only
  rw [hB, hslope]
  push_neg
  have hc2 : Real.sqrt (1 / 14) ^ 2 = 1 / 14 := Real.sq_sqrt (by norm_num)
  have hcpos : 0 < Real.sqrt (1 / 14) := Real.sqrt_pos.mpr (by norm_num)
  have hvpos : 0 < Real.sqrt (3 / 7) := Real.sqrt_pos.mpr (by norm_num)
  have ha : Real.sqrt (1 / 14 + 1) < 1 + Real.sqrt (1 / 14) := by
    rw [Real.sqrt_lt' (by positivity)]
    nlinarith
  nlinarith [mul_pos hvpos (by linarith :
    (0:ℝ) < 1 - (Real.sqrt (1 / 14 + 1) - Real.sqrt (1 / 14)))]

/-- C5 (amended).  For every valid input and nonnegative quantile values,
the point estimate lies within the Ricker interval; it lies within the
Jolicoeur-Mosimann interval as ordered when `r ≥ 0`, and between the two
bounds in reversed order when `r ≤ 0`. -/
theorem C5_slope_containment (X Y : List ℝ) (alpha : ℝ) (tisf : ℝ → ℕ → ℝ)
    (fisf : ℝ → ℕ → ℕ → ℝ) (hl : X.length = Y.length) (hn : 3 ≤ Y.length)
    (hx : 0 < specVar X) (hy : 0 < specVar Y) (ha0 : 0 < alpha) (ha1 : alpha < 1)
    (ht : 0 ≤ tisf (alpha / 2) (Y.length - 2)) (hf : 0 ≤ fisf alpha 1 (Y.length - 2)) :
    ((RMARegression X Y alpha tisf fisf).slope_ci1.1
          ≤ (RMARegression X Y alpha tisf fisf).slope ∧
        (RMARegression X Y alpha tisf fisf).slope
          ≤ (RMARegression X Y alpha tisf fisf).slope_ci1.2) ∧
      (0 ≤ corr X Y →
        (RMARegression X Y alpha tisf fisf).slope_ci2.1
            ≤ (RMARegression X Y alpha tisf fisf).slope ∧
          (RMARegression X Y alpha tisf fisf).slope
            ≤ (RMARegression X Y alpha tisf fisf).slope_ci2.2) ∧
      (corr X Y ≤ 0 →
        (RMARegression X Y alpha tisf fisf).slope_ci2.2
            ≤ (RMARegression X Y alpha tisf fisf).slope ∧
          (RMARegression X Y alpha tisf fisf).slope
            ≤ (RMARegression X Y alpha tisf fisf).slope_ci2.1) := by
  have htsv : 0 ≤ tisf (alpha / 2) (Y.length - 2) * sv X Y :=
    mul_nonneg ht (Real.sqrt_nonneg _)
  have hB := Bjm_nonneg X Y alpha fisf hl hn hx hy hf
  obtain ⟨hac, h1ac⟩ := sqrt_succ_sub_sqrt_le_one hB
  refine ⟨?_, ?_, ?_⟩
  · rw [RMARegression_slope_ci1, RMARegression_slope]; dsimp only
    constructor <;> linarith
  · intro hr
    have hv := slopeRMA_nonneg X Y hr
    rw [RMARegression_slope_ci2, RMARegression_slope]; dsimp only
    have h1 := mul_le_mul_of_nonneg_left hac hv
    have h2 := mul_le_mul_of_nonneg_left h1ac hv
    constructor <;> nlinarith
  · intro hr
    have hv := slopeRMA_nonpos X Y hr
    rw [RMARegression_slope_ci2, RMARegression_slope]; dsimp only
    have h1 : 0 ≤ 1 - (Real.sqrt (Bjm X Y alpha fisf + 1) - Real.sqrt (Bjm X Y alpha fisf)) := by
      linarith
    have h2 : 0 ≤ Real.sqrt (Bjm X Y alpha fisf + 1) + Real.sqrt (Bjm X Y alpha fisf) - 1 := by
      linarith
    constructor <;> nlinarith [mul_nonneg (neg_nonneg.mpr hv) h1, mul_nonneg (neg_nonneg.mpr hv) h2]

/-- Witness for C5's amended theorem on `X = [1,2,3]`, `Y = [2,3,5]`,
`alpha = 1/2`, quantile values `3`. -/
theorem C5_witness :
    (([1, 2, 3] : List ℝ).length = ([2, 3, 5] : List ℝ).length ∧
        3 ≤ ([2, 3, 5] : List ℝ).length ∧ 0 < specVar [1, 2, 3] ∧ 0 < specVar [2, 3, 5] ∧
        (0 : ℝ) < 1 / 2 ∧ (1 : ℝ) / 2 < 1 ∧ (0 : ℝ) ≤ 3 ∧ (0 : ℝ) ≤ 3) ∧
      (((RMARegression [1, 2, 3] [2, 3, 5] (1 / 2) (fun _ _ => 3) (fun _ _ _ => 3)).slope_ci1.1
            ≤ (RMARegression [1, 2, 3] [2, 3, 5] (1 / 2) (fun _ _ => 3) (fun _ _ _ => 3)).slope ∧
          (RMARegression [1, 2, 3] [2, 3, 5] (1 / 2) (fun _ _ => 3) (fun _ _ _ => 3)).slope
            ≤ (RMARegression [1, 2, 3] [2, 3, 5] (1 / 2) (fun _ _ => 3)
                (fun _ _ _ => 3)).slope_ci1.2) ∧
        (0 ≤ corr [1, 2, 3] [2, 3, 5] →
          (RMARegression [1, 2, 3] [2, 3, 5] (1 / 2) (fun _ _ => 3) (fun _ _ _ => 3)).slope_ci2.1
              ≤ (RMARegression [1, 2, 3] [2, 3, 5] (1 / 2) (fun _ _ => 3) (fun _ _ _ => 3)).slope ∧
            (RMARegression [1, 2, 3] [2, 3, 5] (1 / 2) (fun _ _ => 3) (fun _ _ _ => 3)).slope
              ≤ (RMARegression [1, 2, 3] [2, 3, 5] (1 / 2) (fun _ _ => 3)
                  (fun _ _ _ => 3)).slope_ci2.2) ∧
        (corr [1, 2, 3] [2, 3, 5] ≤ 0 →
          (RMARegression [1, 2, 3] [2, 3, 5] (1 / 2) (fun _ _ => 3) (fun _ _ _ => 3)).slope_ci2.2
              ≤ (RMARegression [1, 2, 3] [2, 3, 5] (1 / 2) (fun _ _ => 3) (fun _ _ _ => 3)).slope ∧
            (RMARegression [1, 2, 3] [2, 3, 5] (1 / 2) (fun _ _ => 3) (fun _ _ _ => 3)).slope
              ≤ (RMARegression [1, 2, 3] [2, 3, 5] (1 / 2) (fun _ _ => 3)
                  (fun _ _ _ => 3)).slope_ci2.1)) :=
  ⟨⟨rfl, by norm_num, by norm_num [specVar, mean], by norm_num [specVar, mean],
      by norm_num, by norm_num, by norm_num, by norm_num⟩,
    C5_slope_containment _ _ _ _ _ rfl (by norm_num) (by norm_num [specVar, mean])
      (by norm_num [specVar, mean]) (by norm_num) (by norm_num) (by norm_num) (by norm_num)⟩

/-- Scaling every entry of a list scales its mean. -/
theorem mean_map_mul (c : ℝ) (l : List ℝ) :
    mean (l.map (fun x => c * x)) = c * mean l := by
  rw [mean, mean, List.length_map,
    show (l.map (fun x => c * x)).sum = c * l.sum by simpa using List.sum_map_mul_left l id c,
    mul_div_assoc]

theorem sum_map_eq_mul (c : ℝ) (l : List (ℝ × ℝ)) (g h : ℝ × ℝ → ℝ)
    (hgh : ∀ p, g p = c * h p) : (l.map g).sum = c * (l.map h).sum := by
  induction l with
  | nil => simp
  | cons a l ih => simp [hgh, ih, mul_add]

theorem sxx_scale (X Y : List ℝ) (k m : ℝ) :
    sxx (X.map (fun x => k * x)) (Y.map (fun y => m * y)) = k ^ 2 * sxx X Y := by
  rw [sxx, sxx, List.zip_map, List.map_map]
  refine sum_map_eq_mul (k ^ 2) (X.zip Y) _ _ (fun p => ?_)
  simp only [Function.comp_apply, Prod.map_fst, mean_map_mul]
  ring

theorem syy_scale (X Y : List ℝ) (k m : ℝ) :
    syy (X.map (fun x => k * x)) (Y.map (fun y => m * y)) = m ^ 2 * syy X Y := by
  rw [syy, syy, List.zip_map, List.map_map]
  refine sum_map_eq_mul (m ^ 2) (X.zip Y) _ _ (fun p => ?_)
  simp only [Function.comp_apply, Prod.map_snd, mean_map_mul]
  ring

theorem sxy_scale (X Y : List ℝ) (k m : ℝ) :
    sxy (X.map (fun x => k * x)) (Y.map (fun y => m * y)) = k * m * sxy X Y := by
  rw [sxy, sxy, List.zip_map, List.map_map]
  refine sum_map_eq_mul (k * m) (X.zip Y) _ _ (fun p => ?_)
  simp only [Function.comp_apply, Prod.map_fst, Prod.map_snd, mean_map_mul]
  ring

theorem cov00_scale (X Y : List ℝ) (k m : ℝ) :
    cov00 (X.map (fun x => k * x)) (Y.map (fun y => m * y)) = k ^ 2 * cov00 X Y := by
  rw [cov00, cov00, sxx_scale, List.length_map, mul_div_assoc]

theorem cov11_scale (X Y : List ℝ) (k m : ℝ) :
    cov11 (X.map (fun x => k * x)) (Y.map (fun y => m * y)) = m ^ 2 * cov11 X Y := by
  rw [cov11, cov11, syy_scale, List.length_map, mul_div_assoc]

theorem cov01_scale (X Y : List ℝ) (k m : ℝ) :
    cov01 (X.map (fun x => k * x)) (Y.map (fun y => m * y)) = k * m * cov01 X Y := by
  rw [cov01, cov01, sxy_scale, List.length_map, mul_div_assoc]

/-- The correlation coefficient is invariant under positive rescaling of
either variable. -/
theorem corr_scale (X Y : List ℝ) (k m : ℝ) (hk : 0 < k) (hm : 0 < m) :
    corr (X.map (fun x => k * x)) (Y.map (fun y => m * y)) = corr X Y := by
  rw [corr, corr, cov01_scale, cov00_scale, cov11_scale,
    Real.sqrt_mul (by positivity : (0 : ℝ) ≤ k ^ 2),
    Real.sqrt_mul (by positivity : (0 : ℝ) ≤ m ^ 2),
    Real.sqrt_sq hk.le, Real.sqrt_sq hm.le,
    show k * Real.sqrt (cov00 X Y) * (m * Real.sqrt (cov11 X Y))
      = k * m * (Real.sqrt (cov00 X Y) * Real.sqrt (cov11 X Y)) by ring]
  exact mul_div_mul_left _ _ (by positivity)

theorem SCX_scale (X Y : List ℝ) (k m : ℝ) :
    SCX (X.map (fun x => k * x)) (Y.map (fun y => m * y)) = k ^ 2 * SCX X Y := by
  rw [SCX, SCX, cov00_scale, List.length_map, mul_assoc]

theorem SCY_scale (X Y : List ℝ) (k m : ℝ) :
    SCY (X.map (fun x => k * x)) (Y.map (fun y => m * y)) = m ^ 2 * SCY X Y := by
  rw [SCY, SCY, cov11_scale, List.length_map, mul_assoc]

/-- The RMA slope rescales by `m/k` under positive rescaling. -/
theorem slopeRMA_scale (X Y : List ℝ) (k m : ℝ) (hk : 0 < k) (hm : 0 < m) :
    slopeRMA (X.map (fun x => k * x)) (Y.map (fun y => m * y))
      = m / k * slopeRMA X Y := by
  rw [slopeRMA, slopeRMA, corr_scale X Y k m hk hm, SCY_scale, SCX_scale,
    show m ^ 2 * SCY X Y / (k ^ 2 * SCX X Y) = (m / k) ^ 2 * (SCY X Y / SCX X Y) by
      rw [div_pow, div_mul_div_comm],
    Real.sqrt_mul (by positivity) _, Real.sqrt_sq (by positivity : (0 : ℝ) ≤ m / k)]
  ring

/-- The intercept rescales by `m` under positive rescaling. -/
theorem interceptRMA_scale (X Y : List ℝ) (k m : ℝ) (hk : 0 < k) (hm : 0 < m) :
    interceptRMA (X.map (fun x => k * x)) (Y.map (fun y => m * y))
      = m * interceptRMA X Y := by
  rw [interceptRMA, interceptRMA, mean_map_mul, mean_map_mul,
    slopeRMA_scale X Y k m hk hm]
  field_simp
  ring

/-- C7.  Scale invariance: multiplying X by `k > 0` and Y by `m > 0`
rescales the slope by `m/k` and the intercept by `m`, and leaves
`RSquare` unchanged (exactly, in real arithmetic). -/
theorem C7_scale_invariance (X Y : List ℝ) (alpha k m : ℝ) (tisf : ℝ → ℕ → ℝ)
    (fisf : ℝ → ℕ → ℕ → ℝ) (hl : X.length = Y.length) (hn : 3 ≤ Y.length)
    (hx : 0 < specVar X) (hy : 0 < specVar Y) (ha0 : 0 < alpha) (ha1 : alpha < 1)
    (hk : 0 < k) (hm : 0 < m) :
    (RMARegression (X.map (fun x => k * x)) (Y.map (fun y => m * y)) alpha tisf fisf).slope
        = m / k * (RMARegression X Y alpha tisf fisf).slope ∧
      (RMARegression (X.map (fun x => k * x)) (Y.map (fun y => m * y)) alpha tisf fisf).intercept
        = m * (RMARegression X Y alpha tisf fisf).intercept ∧
      (RMARegression (X.map (fun x => k * x)) (Y.map (fun y => m * y)) alpha tisf fisf).RSquare
        = (RMARegression X Y alpha tisf fisf).RSquare := by
  refine ⟨?_, ?_, ?_⟩
  · rw [RMARegression_slope, RMARegression_slope, slopeRMA_scale X Y k m hk hm]
  · rw [RMARegression_intercept, RMARegression_intercept, interceptRMA_scale X Y k m hk hm]
  · rw [RMARegression_RSquare, RMARegression_RSquare, corr_scale X Y k m hk hm]

/-- Witness for C7 on `X = [1,2,3]`, `Y = [2,3,5]`, `k = 2`, `m = 3`,
`alpha = 1/2`. -/
theorem C7_witness :
    (([1, 2, 3] : List ℝ).length = ([2, 3, 5] : List ℝ).length ∧
        3 ≤ ([2, 3, 5] : List ℝ).length ∧ 0 < specVar [1, 2, 3] ∧ 0 < specVar [2, 3, 5] ∧
        (0 : ℝ) < 1 / 2 ∧ (1 : ℝ) / 2 < 1 ∧ (0 : ℝ) < 2 ∧ (0 : ℝ) < 3) ∧
      ((RMARegression (([1, 2, 3] : List ℝ).map (fun x => 2 * x))
            (([2, 3, 5] : List ℝ).map (fun y => 3 * y)) (1 / 2) (fun _ _ => 2)
            (fun _ _ _ => 2)).slope
          = 3 / 2
            * (RMARegression [1, 2, 3] [2, 3, 5] (1 / 2) (fun _ _ => 2) (fun _ _ _ => 2)).slope ∧
        (RMARegression (([1, 2, 3] : List ℝ).map (fun x => 2 * x))
            (([2, 3, 5] : List ℝ).map (fun y => 3 * y)) (1 / 2) (fun _ _ => 2)
            (fun _ _ _ => 2)).intercept
          = 3 * (RMARegression [1, 2, 3] [2, 3, 5] (1 / 2) (fun _ _ => 2)
              (fun _ _ _ => 2)).intercept ∧
        (RMARegression (([1, 2, 3] : List ℝ).map (fun x => 2 * x))
            (([2, 3, 5] : List ℝ).map (fun y => 3 * y)) (1 / 2) (fun _ _ => 2)
            (fun _ _ _ => 2)).RSquare
          = (RMARegression [1, 2, 3] [2, 3, 5] (1 / 2) (fun _ _ => 2)
              (fun _ _ _ => 2)).RSquare) :=
  ⟨⟨rfl, by norm_num, by norm_num [specVar, mean], by norm_num [specVar, mean],
      by norm_num, by norm_num, by norm_num, by norm_num⟩,
    C7_scale_invariance _ _ _ _ _ _ _ rfl (by norm_num) (by norm_num [specVar, mean])
      (by norm_num [specVar, mean]) (by norm_num) (by norm_num) (by norm_num) (by norm_num)⟩

theorem sum_fst_of_zip (X Y : List ℝ) (hl : X.length = Y.length) :
    ((X.zip Y).map (fun p => p.1)).sum = X.sum := by
  simpa using sum_zip_fst (fun x => x) X Y hl

theorem sum_snd_of_zip (X Y : List ℝ) (hl : X.length = Y.length) :
    ((X.zip Y).map (fun p => p.2)).sum = Y.sum := by
  simpa using sum_zip_snd (fun x => x) X Y hl

/-- C10.  Applying the same permutation to the paired observations leaves
the whole result record unchanged: every field depends only on the
multiset of (x, y) pairs, through order-independent summary sums. -/
theorem C10_permutation_invariance (X Y X' Y' : List ℝ) (alpha : ℝ)
    (tisf : ℝ → ℕ → ℝ) (fisf : ℝ → ℕ → ℕ → ℝ) (hl : X.length = Y.length)
    (hl' : X'.length = Y'.length) (hperm : (X.zip Y).Perm (X'.zip Y')) :
    RMARegression X Y alpha tisf fisf = RMARegression X' Y' alpha tisf fisf := by
  have hzl : (X.zip Y).length = Y.length := by rw [List.length_zip, hl, min_self]
  have hzl' : (X'.zip Y').length = Y'.length := by rw [List.length_zip, hl', min_self]
  have hlen : Y.length = Y'.length := by rw [← hzl, ← hzl', hperm.length_eq]
  have hXsum : X.sum = X'.sum := by
    rw [← sum_fst_of_zip X Y hl, ← sum_fst_of_zip X' Y' hl']
    exact (hperm.map (fun p => p.1)).sum_eq
  have hYsum : Y.sum = Y'.sum := by
    rw [← sum_snd_of_zip X Y hl, ← sum_snd_of_zip X' Y' hl']
    exact (hperm.map (fun p => p.2)).sum_eq
  have hmX : mean X = mean X' := by rw [mean, mean, hXsum, hl, hl', hlen]
  have hmY : mean Y = mean Y' := by rw [mean, mean, hYsum, hlen]
  have hsxx : sxx X Y = sxx X' Y' := by
    rw [sxx, sxx, hmX]; exact (hperm.map _).sum_eq
  have hsyy : syy X Y = syy X' Y' := by
    rw [syy, syy, hmY]; exact (hperm.map _).sum_eq
  have hsxy : sxy X Y = sxy X' Y' := by
    rw [sxy, sxy, hmX, hmY]; exact (hperm.map _).sum_eq
  have hc00 : cov00 X Y = cov00 X' Y' := by rw [cov00, cov00, hsxx, hlen]
  have hc11 : cov11 X Y = cov11 X' Y' := by rw [cov11, cov11, hsyy, hlen]
  have hc01 : cov01 X Y = cov01 X' Y' := by rw [cov01, cov01, hsxy, hlen]
  have hcorr : corr X Y = corr X' Y' := by rw [corr, corr, hc01, hc00, hc11]
  have hSCX : SCX X Y = SCX X' Y' := by rw [SCX, SCX, hc00, hlen]
  have hSCY : SCY X Y = SCY X' Y' := by rw [SCY, SCY, hc11, hlen]
  have hSCP : SCP X Y = SCP X' Y' := by rw [SCP, SCP, hc01, hlen]
  have hslope : slopeRMA X Y = slopeRMA X' Y' := by
    rw [slopeRMA, slopeRMA, hcorr, hSCY, hSCX]
  have hsv : sv X Y = sv X' Y' := by
    rw [sv, sv, Nv, Nv, SCv, SCv, hSCY, hSCP, hSCX, hlen]
  have hB : Bjm X Y alpha fisf = Bjm X' Y' alpha fisf := by
    rw [Bjm, Bjm, hcorr, hlen]
  have hint : interceptRMA X Y = interceptRMA X' Y' := by
    rw [interceptRMA, interceptRMA, hmX, hmY, hslope]
  simp only [RMARegression]
  rw [hslope, hsv, hB, hmX, hmY, hlen, hint, hcorr]

/-- Witness for C10: rotating the paired sample
`X = [1,2,3], Y = [4,5,6]` to `X' = [2,3,1], Y' = [5,6,4]` gives the same
result record. -/
theorem C10_witness :
    (([1, 2, 3] : List ℝ).length = ([4, 5, 6] : List ℝ).length ∧
        ([2, 3, 1] : List ℝ).length = ([5, 6, 4] : List ℝ).length ∧
        ((([1, 2, 3] : List ℝ).zip ([4, 5, 6] : List ℝ)).Perm
          ((([2, 3, 1] : List ℝ)).zip ([5, 6, 4] : List ℝ)))) ∧
      RMARegression [1, 2, 3] [4, 5, 6] (1 / 2) (fun _ _ => 2) (fun _ _ _ => 2)
        = RMARegression [2, 3, 1] [5, 6, 4] (1 / 2) (fun _ _ => 2) (fun _ _ _ => 2) := by
  have hp : ((([1, 2, 3] : List ℝ).zip ([4, 5, 6] : List ℝ)).Perm
      ((([2, 3, 1] : List ℝ)).zip ([5, 6, 4] : List ℝ))) := by
    simp only [List.zip_cons_cons, List.zip_nil_right]
    exact (List.Perm.swap _ _ _).trans (List.Perm.cons _ (List.Perm.swap _ _ _))
  exact ⟨⟨rfl, rfl, hp⟩, C10_permutation_invariance _ _ _ _ _ _ _ rfl rfl hp⟩

theorem Xdata_mean : mean Xdata = 334 / 11 := by norm_num [Xdata, mean]

theorem Ydata_mean : mean Ydata = 842 / 11 := by norm_num [Ydata, mean]

theorem data_sxx : sxx Xdata Ydata = 10258 / 11 := by
  norm_num [sxx, Xdata, Ydata, mean, List.zip]

theorem data_syy : syy Xdata Ydata = 46076 / 11 := by
  norm_num [syy, Xdata, Ydata, mean, List.zip]

theorem data_sxy : sxy Xdata Ydata = 19182 / 11 := by
  norm_num [sxy, Xdata, Ydata, mean, List.zip]

theorem data_SCX : SCX Xdata Ydata = 10258 / 11 := by
  rw [SCX, cov00, data_sxx]; norm_num [Ydata]

theorem data_SCY : SCY Xdata Ydata = 46076 / 11 := by
  rw [SCY, cov11, data_syy]; norm_num [Ydata]

theorem data_SCP : SCP Xdata Ydata = 19182 / 11 := by
  rw [SCP, cov01, data_sxy]; norm_num [Ydata]

theorem data_cov00 : cov00 Xdata Ydata = 5129 / 55 := by
  rw [cov00, data_sxx]; norm_num [Ydata]

theorem data_cov11 : cov11 Xdata Ydata = 23038 / 55 := by
  rw [cov11, data_syy]; norm_num [Ydata]

theorem data_cov01 : cov01 Xdata Ydata = 9591 / 55 := by
  rw [cov01, data_sxy]; norm_num [Ydata]

theorem data_corr_pos : 0 < corr Xdata Ydata := by
  rw [corr, data_cov01, data_cov00, data_cov11]
  apply div_pos (by norm_num)
  positivity

theorem data_r2 : corr Xdata Ydata ^ 2 = 3999447 / 5137474 := by
  rw [corr, data_cov01, data_cov00, data_cov11, div_pow, mul_pow,
    Real.sq_sqrt (by norm_num : (0:ℝ) ≤ 5129 / 55),
    Real.sq_sqrt (by norm_num : (0:ℝ) ≤ 23038 / 55)]
  norm_num

theorem data_slope : slopeRMA Xdata Ydata = Real.sqrt (23038 / 5129) := by
  have hratio : SCY Xdata Ydata / SCX Xdata Ydata = 23038 / 5129 := by
    rw [data_SCY, data_SCX]; norm_num
  rw [slopeRMA, Real.sign_of_pos data_corr_pos, hratio, one_mul]

theorem data_sv : sv Xdata Ydata = Real.sqrt (1138027 / 10293903) := by
  have hnsx : Nv Xdata Ydata / SCX Xdata Ydata = 1138027 / 10293903 := by
    rw [Nv, SCv, data_SCY, data_SCP, data_SCX]; norm_num [Ydata]
  rw [sv, hnsx]

theorem data_Bjm (fisf : ℝ → ℕ → ℕ → ℝ) :
    Bjm Xdata Ydata 0.05 fisf = fisf 0.05 1 9 * (1138027 / 5137474) / 9 := by
  rw [Bjm, data_r2]
  norm_num [Ydata]

set_option maxHeartbeats 2000000 in
/-- C6.  The worked example: on the cabezon data with `alpha = 0.05`,
given t- and F-quantile values matching the true
`t_{0.975,9} = 2.26215716...` and `F_{0.95}(1,9) = 5.11735502...`, every
returned field agrees with the spec's 4-decimal expected output to within
half a unit in the fourth decimal place. -/
theorem C6_worked_example (tisf : ℝ → ℕ → ℝ) (fisf : ℝ → ℕ → ℕ → ℝ)
    (ht1 : 2.26215716 ≤ tisf (0.05 / 2) 9) (ht2 : tisf (0.05 / 2) 9 ≤ 2.26215717)
    (hf1 : 5.11735502 ≤ fisf 0.05 1 9) (hf2 : fisf 0.05 1 9 ≤ 5.11735503) :
    |(RMARegression Xdata Ydata 0.05 tisf fisf).slope - 2.1194| < 0.00005 ∧
      |(RMARegression Xdata Ydata 0.05 tisf fisf).intercept - 12.1938| < 0.00005 ∧
      |(RMARegression Xdata Ydata 0.05 tisf fisf).intercept_ci1.1 - (-10.6445)| < 0.00005 ∧
      |(RMARegression Xdata Ydata 0.05 tisf fisf).intercept_ci1.2 - 35.0320| < 0.00005 ∧
      |(RMARegression Xdata Ydata 0.05 tisf fisf).slope_ci1.1 - 1.3672| < 0.00005 ∧
      |(RMARegression Xdata Ydata 0.05 tisf fisf).slope_ci1.2 - 2.8715| < 0.00005 ∧
      |(RMARegression Xdata Ydata 0.05 tisf fisf).intercept_ci2.1 - (-14.5769)| < 0.00005 ∧
      |(RMARegression Xdata Ydata 0.05 tisf fisf).intercept_ci2.2 - 31.0996| < 0.00005 ∧
      |(RMARegression Xdata Ydata 0.05 tisf fisf).slope_ci2.1 - 1.4967| < 0.00005 ∧
      |(RMARegression Xdata Ydata 0.05 tisf fisf).slope_ci2.2 - 3.0010| < 0.00005 := by
  have hlen : Ydata.length - 2 = 9 := rfl
  have ht0 : (0 : ℝ) ≤ tisf (0.05 / 2) 9 := le_trans (by norm_num) ht1
  -- bounds on the point-estimate radical
  have hs0l : (2.11936636 : ℝ) < Real.sqrt (23038 / 5129) := by
    rw [Real.lt_sqrt (by norm_num)]; norm_num
  have hs0u : Real.sqrt (23038 / 5129) < (2.11936637 : ℝ) := by
    rw [Real.sqrt_lt' (by norm_num)]; norm_num
  -- bounds on the slope standard error radical
  have hsvl : (0.33249586 : ℝ) < sv Xdata Ydata := by
    rw [data_sv, Real.lt_sqrt (by norm_num)]; norm_num
  have hsvu : sv Xdata Ydata < (0.33249587 : ℝ) := by
    rw [data_sv, Real.sqrt_lt' (by norm_num)]; norm_num
  -- bounds on B and its radicals
  have hBexpr := data_Bjm fisf
  have hBl : (5.11735502 : ℝ) * (1138027 / 5137474) / 9 ≤ Bjm Xdata Ydata 0.05 fisf := by
    rw [hBexpr]; gcongr
  have hBu : Bjm Xdata Ydata 0.05 fisf ≤ (5.11735503 : ℝ) * (1138027 / 5137474) / 9 := by
    rw [hBexpr]; gcongr
  have hal : (1.06110897 : ℝ) ≤ Real.sqrt (Bjm Xdata Ydata 0.05 fisf + 1) := by
    rw [Real.le_sqrt' (by norm_num)]
    have h := hBl
    have h2 : (1.06110897 : ℝ) ^ 2 ≤ (5.11735502 : ℝ) * (1138027 / 5137474) / 9 + 1 := by
      norm_num
    linarith
  have hau : Real.sqrt (Bjm Xdata Ydata 0.05 fisf + 1) ≤ (1.06110898 : ℝ) := by
    have h2 : Bjm Xdata Ydata 0.05 fisf + 1 ≤ (1.06110898 : ℝ) ^ 2 := by
      have h3 : (5.11735503 : ℝ) * (1138027 / 5137474) / 9 + 1 ≤ (1.06110898 : ℝ) ^ 2 := by
        norm_num
      linarith
    calc Real.sqrt (Bjm Xdata Ydata 0.05 fisf + 1)
        ≤ Real.sqrt ((1.06110898 : ℝ) ^ 2) := Real.sqrt_le_sqrt h2
      _ = (1.06110898 : ℝ) := Real.sqrt_sq (by norm_num)
  have hcl : (0.35489753 : ℝ) ≤ Real.sqrt (Bjm Xdata Ydata 0.05 fisf) := by
    rw [Real.le_sqrt' (by norm_num)]
    have h2 : (0.35489753 : ℝ) ^ 2 ≤ (5.11735502 : ℝ) * (1138027 / 5137474) / 9 := by
      norm_num
    linarith
  have hcu : Real.sqrt (Bjm Xdata Ydata 0.05 fisf) ≤ (0.35489754 : ℝ) := by
    have h2 : Bjm Xdata Ydata 0.05 fisf ≤ (0.35489754 : ℝ) ^ 2 := by
      have h3 : (5.11735503 : ℝ) * (1138027 / 5137474) / 9 ≤ (0.35489754 : ℝ) ^ 2 := by
        norm_num
      linarith
    calc Real.sqrt (Bjm Xdata Ydata 0.05 fisf)
        ≤ Real.sqrt ((0.35489754 : ℝ) ^ 2) := Real.sqrt_le_sqrt h2
      _ = (0.35489754 : ℝ) := Real.sqrt_sq (by norm_num)
  -- Ricker half-width bounds
  have hTl : (2.26215716 : ℝ) * 0.33249586 ≤ tisf (0.05 / 2) 9 * sv Xdata Ydata :=
    mul_le_mul ht1 hsvl.le (by norm_num) ht0
  have hTu : tisf (0.05 / 2) 9 * sv Xdata Ydata ≤ (2.26215717 : ℝ) * 0.33249587 :=
    mul_le_mul ht2 hsvu.le (le_trans (by norm_num) hsvl.le) (by norm_num)
  -- Jolicoeur-Mosimann product bounds
  have hd1l : (1.06110897 - 0.35489754 : ℝ)
      ≤ Real.sqrt (Bjm Xdata Ydata 0.05 fisf + 1) - Real.sqrt (Bjm Xdata Ydata 0.05 fisf) := by
    linarith
  have hd1u : Real.sqrt (Bjm Xdata Ydata 0.05 fisf + 1) - Real.sqrt (Bjm Xdata Ydata 0.05 fisf)
      ≤ (1.06110898 - 0.35489753 : ℝ) := by linarith
  have hd2l : (1.06110897 + 0.35489753 : ℝ)
      ≤ Real.sqrt (Bjm Xdata Ydata 0.05 fisf + 1) + Real.sqrt (Bjm Xdata Ydata 0.05 fisf) := by
    linarith
  have hd2u : Real.sqrt (Bjm Xdata Ydata 0.05 fisf + 1) + Real.sqrt (Bjm Xdata Ydata 0.05 fisf)
      ≤ (1.06110898 + 0.35489754 : ℝ) := by linarith
  have hP1l : (2.11936636 : ℝ) * (1.06110897 - 0.35489754)
      ≤ Real.sqrt (23038 / 5129)
        * (Real.sqrt (Bjm Xdata Ydata 0.05 fisf + 1) - Real.sqrt (Bjm Xdata Ydata 0.05 fisf)) :=
    mul_le_mul hs0l.le hd1l (by norm_num) (Real.sqrt_nonneg _)
  have hP1u : Real.sqrt (23038 / 5129)
        * (Real.sqrt (Bjm Xdata Ydata 0.05 fisf + 1) - Real.sqrt (Bjm Xdata Ydata 0.05 fisf))
      ≤ (2.11936637 : ℝ) * (1.06110898 - 0.35489753) :=
    mul_le_mul hs0u.le hd1u (le_trans (by norm_num) hd1l) (by norm_num)
  have hP2l : (2.11936636 : ℝ) * (1.06110897 + 0.35489753)
      ≤ Real.sqrt (23038 / 5129)
        * (Real.sqrt (Bjm Xdata Ydata 0.05 fisf + 1) + Real.sqrt (Bjm Xdata Ydata 0.05 fisf)) :=
    mul_le_mul hs0l.le hd2l (by norm_num) (Real.sqrt_nonneg _)
  have hP2u : Real.sqrt (23038 / 5129)
        * (Real.sqrt (Bjm Xdata Ydata 0.05 fisf + 1) + Real.sqrt (Bjm Xdata Ydata 0.05 fisf))
      ≤ (2.11936637 : ℝ) * (1.06110898 + 0.35489754) :=
    mul_le_mul hs0u.le hd2u (le_trans (by norm_num) hd2l) (by norm_num)
  refine ⟨?_, ?_, ?_, ?_, ?_, ?_, ?_, ?_, ?_, ?_⟩
  · rw [RMARegression_slope, data_slope, abs_lt]
    constructor <;> linarith
  · rw [RMARegression_intercept, interceptRMA, data_slope, Xdata_mean, Ydata_mean, abs_lt]
    constructor <;> linarith
  · rw [RMARegression_intercept_ci1, hlen]
    dsimp only
    rw [data_slope, Xdata_mean, Ydata_mean, abs_lt]
    constructor <;> linarith
  · rw [RMARegression_intercept_ci1, hlen]
    dsimp only
    rw [data_slope, Xdata_mean, Ydata_mean, abs_lt]
    constructor <;> linarith
  · rw [RMARegression_slope_ci1, hlen]
    dsimp only
    rw [data_slope, abs_lt]
    constructor <;> linarith
  · rw [RMARegression_slope_ci1, hlen]
    dsimp only
    rw [data_slope, abs_lt]
    constructor <;> linarith
  · rw [RMARegression_intercept_ci2]
    dsimp only
    rw [data_slope, Xdata_mean, Ydata_mean, abs_lt]
    constructor <;> linarith
  · rw [RMARegression_intercept_ci2]
    dsimp only
    rw [data_slope, Xdata_mean, Ydata_mean, abs_lt]
    constructor <;> linarith
  · rw [RMARegression_slope_ci2]
    dsimp only
    rw [data_slope, abs_lt]
    constructor <;> linarith
  · rw [RMARegression_slope_ci2]
    dsimp only
    rw [data_slope, abs_lt]
    constructor <;> linarith

/-- Witness for C6: quantile oracle values `t* = 2.26215716`,
`F* = 5.11735502` satisfy the hypotheses, and the worked example's ten
field bounds follow. -/
theorem C6_witness :
    ((2.26215716 : ℝ) ≤ 2.26215716 ∧ (2.26215716 : ℝ) ≤ 2.26215717 ∧
        (5.11735502 : ℝ) ≤ 5.11735502 ∧ (5.11735502 : ℝ) ≤ 5.11735503) ∧
      (|(RMARegression Xdata Ydata 0.05 (fun _ _ => 2.26215716)
            (fun _ _ _ => 5.11735502)).slope - 2.1194| < 0.00005 ∧
        |(RMARegression Xdata Ydata 0.05 (fun _ _ => 2.26215716)
            (fun _ _ _ => 5.11735502)).intercept - 12.1938| < 0.00005 ∧
        |(RMARegression Xdata Ydata 0.05 (fun _ _ => 2.26215716)
            (fun _ _ _ => 5.11735502)).intercept_ci1.1 - (-10.6445)| < 0.00005 ∧
        |(RMARegression Xdata Ydata 0.05 (fun _ _ => 2.26215716)
            (fun _ _ _ => 5.11735502)).intercept_ci1.2 - 35.0320| < 0.00005 ∧
        |(RMARegression Xdata Ydata 0.05 (fun _ _ => 2.26215716)
            (fun _ _ _ => 5.11735502)).slope_ci1.1 - 1.3672| < 0.00005 ∧
        |(RMARegression Xdata Ydata 0.05 (fun _ _ => 2.26215716)
            (fun _ _ _ => 5.11735502)).slope_ci1.2 - 2.8715| < 0.00005 ∧
        |(RMARegression Xdata Ydata 0.05 (fun _ _ => 2.26215716)
            (fun _ _ _ => 5.11735502)).intercept_ci2.1 - (-14.5769)| < 0.00005 ∧
        |(RMARegression Xdata Ydata 0.05 (fun _ _ => 2.26215716)
            (fun _ _ _ => 5.11735502)).intercept_ci2.2 - 31.0996| < 0.00005 ∧
        |(RMARegression Xdata Ydata 0.05 (fun _ _ => 2.26215716)
            (fun _ _ _ => 5.11735502)).slope_ci2.1 - 1.4967| < 0.00005 ∧
        |(RMARegression Xdata Ydata 0.05 (fun _ _ => 2.26215716)
            (fun _ _ _ => 5.11735502)).slope_ci2.2 - 3.0010| < 0.00005) :=
  ⟨⟨le_refl _, by norm_num, le_refl _, by norm_num⟩,
    C6_worked_example (fun _ _ => 2.26215716) (fun _ _ _ => 5.11735502)
      (by norm_num) (by norm_num) (by norm_num) (by norm_num)⟩

end

end RMA
